import Mathlib

/-!
A verification development for the agent-runtime package of this repository.

The TypeScript source is embedded shallowly: pure functions become Lean
functions, stateful code threads explicit state, collaborator calls that are
outside the runtime (LLM transport, storage, token counting, tool handlers)
become oracle parameters.  Machine numbers are modelled by `Int`/`Nat`/`Rat`
(JS numbers overflow no quantity used here).
-/

namespace AgentRuntime

/-! ## Data model (`common/types/messages/codebuff-message`) -/

/-- Message roles, from the `system | user | assistant | tool` tagged sum. -/
inductive Role where
  | system
  | user
  | assistant
  | tool
deriving DecidableEq, Repr

/-- `timeToLive` values of a message. -/
inductive TimeToLive where
  | agentStep
  | userPrompt
deriving DecidableEq, Repr

/-- Content parts `{text | image | tool-call}`.  Image payloads are opaque. -/
inductive ContentPart where
  | text (text : String)
  | image (data : String)
  | toolCallPart (toolCallId : String) (toolName : String)
deriving DecidableEq, Repr

/-- A conversation message.  String content is modelled as a single `text`
part.  `toolCallId`/`toolName` are only meaningful for `role = tool`. -/
structure Message where
  role : Role
  content : List ContentPart := []
  tags : List String := []
  keepLastTags : List String := []
  timeToLive : Option TimeToLive := none
  keepDuringTruncation : Bool := false
  toolCallId : String := ""
  toolName : String := ""
deriving DecidableEq, Repr

/-- `closeXml` from `common/util/xml`: closing tag for a tag name. -/
def closeXml (tag : String) : String := "</" ++ tag ++ ">"

/-- `withSystemTags` (message builders): wraps content in system XML tags. -/
def withSystemTags (str : String) : String :=
  "<system>" ++ str ++ closeXml "system"

/-- `withSystemInstructionTags` (message builders). -/
def withSystemInstructionTags (str : String) : String :=
  "<system_instructions>" ++ str ++ closeXml "system_instructions"

/-- `userMessage` on a plain string (`common/util/messages`). -/
def userMessageStr (s : String) : Message :=
  { role := Role.user, content := [ContentPart.text s] }

/-- `assistantMessage` on a plain string (`common/util/messages`). -/
def assistantMessage (s : String) : Message :=
  { role := Role.assistant, content := [ContentPart.text s] }

/-! ## Message filtering and expiration (unnamed part 007) -/

/-- `expireMessages(messages, endOf)`: keeps messages with no `timeToLive`;
drops `agentStep` messages at either boundary; drops `userPrompt` messages
only when `endOf = userPrompt`. -/
def expireMessages (messages : List Message) (endOf : TimeToLive) : List Message :=
  messages.filter fun m =>
    match m.timeToLive with
    | none => true
    | some TimeToLive.agentStep => false
    | some TimeToLive.userPrompt => !(endOf == TimeToLive.userPrompt)

/-- First pass of `filterUnfinishedToolCalls`: the `toolCallId`s of all
`tool` messages in the history. -/
def respondedToolCallIds (messages : List Message) : List String :=
  (messages.filter fun m => m.role == Role.tool).map fun m => m.toolCallId

/-- `filterUnfinishedToolCalls(messages)`: removes assistant tool-call parts
whose `toolCallId` has no matching `tool` message, and drops assistant
messages whose content becomes empty. -/
def filterUnfinishedToolCalls (messages : List Message) : List Message :=
  let responded := respondedToolCallIds messages
  messages.filterMap fun message =>
    if message.role != Role.assistant then some message
    else
      let filteredContent := message.content.filter fun part =>
        match part with
        | ContentPart.toolCallPart id _ => responded.contains id
        | _ => true
      if filteredContent.length > 0 then some { message with content := filteredContent }
      else none

/-! ## Token-bounded truncation (unnamed part 006)

`countTokensJson` lives in `util/token-counter`, which is not under `src/`.
-/

/-- Modelled from the spec: `countTokensJson` (util/token-counter, not under
`src/`) estimates the token cost of a JSON value.  It is modelled by an
arbitrary per-message cost function `tc`, extended additively to lists. -/
def countTokensList (tc : Message → Nat) (messages : List Message) : Nat :=
  (messages.map tc).sum

/-- `numTerminalCommandsToKeep`: terminal outputs kept in full form. -/
def numTerminalCommandsToKeep : Nat := 5

/-- `shortenedMessageTokenFactor = 0.5`: factor reducing the token target.
The source computes `tokensToRemove = (maxMessageTokens - requiredTokens) *
(1 - shortenedMessageTokenFactor)` in (exact, for these magnitudes) binary
floating point; with the factor `1/2` and integer token counts, every
comparison `removedTokens >= tokensToRemove` below is therefore modelled
exactly by `2 * removedTokens >= maxMessageTokens - requiredTokens`, and the
embedding keeps all quantities in `Int` with the comparison doubled. -/
def shortenedMessageTokenFactor : ℚ := 1 / 2

/-- The `replacementMessage` placeholder inserted for dropped ranges. -/
def replacementMessage : Message :=
  userMessageStr (withSystemTags "Previous message(s) omitted due to length")

/-- `simplifyTerminalHelper`: keeps full output for the `N` most recent
terminal commands, otherwise substitutes the simplified output.  The
external `simplifyTerminalCommandResults` is the parameter `simplify`. -/
def simplifyTerminalHelper (simplify : List ContentPart → List ContentPart)
    (toolResult : List ContentPart) (numKept : Nat) :
    List ContentPart × Nat :=
  let simplified := simplify toolResult
  if numKept < numTerminalCommandsToKeep ∧ simplified ≠ toolResult then
    (toolResult, numKept + 1)
  else (simplified, numKept)

/-- The newest-to-oldest sweep of `trimMessagesToFitTokenLimit`, operating on
the reversed message list with the `numKept` counter threaded through. -/
def shortenRev (simplify : List ContentPart → List ContentPart) :
    List Message → Nat → List Message
  | [], _ => []
  | m :: rest, numKept =>
    if m.role = Role.tool then
      if m.toolName ≠ "run_terminal_command" then
        m :: shortenRev simplify rest numKept
      else
        let r := simplifyTerminalHelper simplify m.content numKept
        { m with content := r.1 } :: shortenRev simplify rest r.2
    else m :: shortenRev simplify rest numKept

/-- The dropping loop of `trimMessagesToFitTokenLimit`.  `none` entries in the
accumulator stand for the `'deleted'` placeholder sentinel.
`tokensToRemoveDoubled` is `2 * tokensToRemove` (see
`shortenedMessageTokenFactor`), so the stop test `removedTokens >=
tokensToRemove` is `tokensToRemoveDoubled ≤ 2 * removedTokens`. -/
def dropPass (tc : Message → Nat) (tokensToRemoveDoubled : Int) :
    List Message → Int → List (Option Message) → List (Option Message)
  | [], _, acc => acc
  | message :: rest, removedTokens, acc =>
    if tokensToRemoveDoubled ≤ 2 * removedTokens ∨ message.keepDuringTruncation then
      dropPass tc tokensToRemoveDoubled rest removedTokens (acc ++ [some message])
    else
      let removed := removedTokens + (tc message : Int)
      if acc.getLast? ≠ some none then
        dropPass tc tokensToRemoveDoubled rest (removed - (tc replacementMessage : Int))
          (acc ++ [none])
      else dropPass tc tokensToRemoveDoubled rest removed acc

/-- `trimMessagesToFitTokenLimit({messages, systemTokens, maxTotalTokens})`.
Returns the input unchanged when already under the limit; otherwise
simplifies terminal outputs newest-to-oldest, then drops older non-kept
messages until `tokensToRemove` tokens are removed, replacing each dropped
run by `replacementMessage`. -/
def trimMessagesToFitTokenLimit (tc : Message → Nat)
    (simplify : List ContentPart → List ContentPart)
    (messages : List Message) (systemTokens maxTotalTokens : Int) :
    List Message :=
  let maxMessageTokens := maxTotalTokens - systemTokens
  let initialTokens := countTokensList tc messages
  if (initialTokens : Int) < maxMessageTokens then messages
  else
    let shortenedMessages := (shortenRev simplify messages.reverse 0).reverse
    let requiredTokens :=
      countTokensList tc (shortenedMessages.filter fun m => m.keepDuringTruncation)
    let tokensToRemoveDoubled : Int := maxMessageTokens - (requiredTokens : Int)
    let filteredMessages := dropPass tc tokensToRemoveDoubled shortenedMessages 0 []
    filteredMessages.map fun m =>
      match m with
      | none => replacementMessage
      | some m => m

/-! ## Agent templates, agent state, programmatic handler scripts -/

/-- A value yielded by a programmatic step handler
(`HandleStepsYieldValueSchema`).  `invalid` stands for any value that fails
the schema parse. -/
inductive YieldValue where
  | STEP
  | STEP_ALL
  | STEP_TEXT (text : String)
  | GENERATE_N (n : Nat)
  | toolCall (toolName : String) (input : String) (includeToolCall : Bool)
  | invalid
deriving DecidableEq, Repr

/-- One resumption of a handler coroutine: `generator.next()` either yields a
value or throws. -/
inductive GenNext where
  | yielded (v : YieldValue)
  | thrown (msg : String)
deriving DecidableEq, Repr

/-- A handler coroutine is modelled as the script of its successive
`next()` outcomes; the coroutine is `done` when the script is exhausted. -/
abbrev GenScript := List GenNext

/-- An agent template (`common/types/agent-template`), restricted to the
fields the runtime reads.  `outputSchema` records only whether a schema is
present; `mcpServers` records only the configured server names. -/
structure AgentTemplate where
  id : String
  toolNames : List String := []
  spawnableAgents : List String := []
  mcpServers : List String := []
  includeMessageHistory : Bool := false
  inheritParentSystemPrompt : Bool := false
  outputSchema : Bool := false
  handleSteps : Option GenScript := none
deriving DecidableEq, Repr

/-- The `output` field of an agent state; `error` is the field set by
`handleProgrammaticError`, `payload` stands for the `set_output` value. -/
structure OutputObj where
  error : Option String := none
  payload : String := ""
deriving DecidableEq, Repr

/-- Agent state (`common/types/session-state`), restricted to the fields the
runtime reads and writes.  `agentContext` and `toolDefinitions` are kept as
opaque association lists. -/
structure AgentState where
  agentId : String
  agentType : String := ""
  runId : Option String := none
  parentId : Option String := none
  ancestorRunIds : List String := []
  subagents : List String := []
  childRunIds : List String := []
  messageHistory : List Message := []
  stepsRemaining : Int := 0
  creditsUsed : Int := 0
  directCreditsUsed : Int := 0
  output : Option OutputObj := none
  systemPrompt : String := ""
  agentContext : List (String × String) := []
  toolDefinitions : List (String × String) := []
  contextTokenCount : Nat := 0
deriving DecidableEq, Repr

/-! ## Spawn validation (unnamed part 009, `spawn-utils/validation`) -/

/-- The result of `parseAgentId` (`common/util/agent-id-parsing`, not under
`src/`): the `(publisherId, agentId, version)` components of a
fully-qualified agent id, each absent when not present in the id.  The
parser itself is kept abstract as a parameter `parse`. -/
structure ParsedAgentId where
  publisherId : Option String := none
  agentId : Option String := none
  version : Option String := none
deriving DecidableEq, Repr

/-- The per-entry match test inside the loop of `getMatchingSpawn`:
the four cascaded `if` blocks of the source, with `c` the parsed child id
and `s` the parsed spawnable entry (both already known to have `agentId`). -/
def spawnEntryMatches (c : ParsedAgentId) (childAgentId : String)
    (s : ParsedAgentId) (spawnableAgentId : String) : Bool :=
  (spawnableAgentId == childAgentId && s.publisherId == c.publisherId
      && s.version == c.version)
  || (c.version == none && c.publisherId != none
      && s.publisherId == c.publisherId && spawnableAgentId == childAgentId)
  || (c.publisherId == none && c.version != none
      && spawnableAgentId == childAgentId && s.version == c.version)
  || (c.version == none && c.publisherId == none
      && spawnableAgentId == childAgentId)

/-- `getMatchingSpawn(spawnableAgents, childFullAgentId)`: returns the first
`spawnableAgents` entry compatible with the child id, or `none`. -/
def getMatchingSpawn (parse : String → ParsedAgentId)
    (spawnableAgents : List String) (childFullAgentId : String) :
    Option String :=
  let c := parse childFullAgentId
  match c.agentId with
  | none => none
  | some childAgentId =>
    spawnableAgents.find? fun spawnableAgent =>
      match (parse spawnableAgent).agentId with
      | none => false
      | some spawnableAgentId =>
        spawnEntryMatches c childAgentId (parse spawnableAgent) spawnableAgentId

/-- `BASE_AGENTS`: templates that may spawn any child. -/
def BASE_AGENTS : List String := ["base", "base-lite", "base-max", "base-experimental"]

/-- `validateAndGetAgentTemplate`: resolves the child template (via the
injected registry `lookup`), lets base parents spawn anything, and otherwise
requires `getMatchingSpawn` to succeed. -/
def validateAndGetAgentTemplate (lookup : String → Option AgentTemplate)
    (parse : String → ParsedAgentId) (agentTypeStr : String)
    (parentAgentTemplate : AgentTemplate) :
    Except String (AgentTemplate × String) :=
  match lookup agentTypeStr with
  | none => Except.error ("Agent type " ++ agentTypeStr ++ " not found.")
  | some agentTemplate =>
    if BASE_AGENTS.contains parentAgentTemplate.id then
      Except.ok (agentTemplate, agentTypeStr)
    else
      match getMatchingSpawn parse parentAgentTemplate.spawnableAgents agentTypeStr with
      | none =>
        Except.error ("Agent type " ++ parentAgentTemplate.id
          ++ " is not allowed to spawn child agent type " ++ agentTypeStr ++ ".")
      | some agentType => Except.ok (agentTemplate, agentType)

/-- The compatible-id rule as the spec words it: equality on
`(publisher, id, version)` with `publisher` and/or `version` treated as
wildcards exactly when they are absent on the child.  Stated from the spec
for comparison with `getMatchingSpawn`. -/
def specCompatibleId (child spawnable : ParsedAgentId) : Prop :=
  child.agentId.isSome ∧ spawnable.agentId = child.agentId
    ∧ (child.publisherId = none ∨ spawnable.publisherId = child.publisherId)
    ∧ (child.version = none ∨ spawnable.version = child.version)

instance (child spawnable : ParsedAgentId) :
    Decidable (specCompatibleId child spawnable) := by
  unfold specCompatibleId; infer_instance

/-! ## Spawned agent state (unnamed part 009, `spawn-utils/state`) -/

/-- Modelled from the spec: `MAX_AGENT_STEPS_DEFAULT`
(`common/constants/agents`, not under `src/`) — the default step budget of a
spawned agent; the spec calls it `defaultMax`.  Its numeric value is not in
`src/` and no claim depends on it. -/
def MAX_AGENT_STEPS_DEFAULT : Int := 12

/-- The spawn-marker user message appended to a spawned child's history. -/
def spawnMarkerMessage (agentType : String) : Message :=
  { role := Role.user
    content := [ContentPart.text
      (withSystemTags ("Subagent " ++ agentType ++ " has been spawned."))]
    tags := ["SUBAGENT_SPAWN"] }

/-- `createAgentState(agentType, agentTemplate, parentAgentState,
agentContext)`: fresh state for a spawned agent.  `generateCompactId` is
external, so the fresh id is the parameter `freshId`. -/
def createAgentState (freshId : String) (agentType : String)
    (agentTemplate : AgentTemplate) (parentAgentState : AgentState)
    (agentContext : List (String × String)) : AgentState :=
  let messageHistory : List Message :=
    if agentTemplate.includeMessageHistory then
      filterUnfinishedToolCalls parentAgentState.messageHistory
        ++ [spawnMarkerMessage agentType]
    else []
  { agentId := freshId
    agentType := agentType
    agentContext := agentContext
    ancestorRunIds := parentAgentState.ancestorRunIds
      ++ [parentAgentState.runId.getD "NULL"]
    subagents := []
    childRunIds := []
    messageHistory := messageHistory
    stepsRemaining := MAX_AGENT_STEPS_DEFAULT
    creditsUsed := 0
    directCreditsUsed := 0
    output := none
    parentId := some parentAgentState.agentId
    systemPrompt := ""
    toolDefinitions := []
    contextTokenCount := parentAgentState.contextTokenCount }

/-! ## Single agent step (`core/run-step.ts`)

`TOOLS_WHICH_WONT_FORCE_NEXT_STEP` is imported from
`common/tools/constants`, which is not under `src/`; it is threaded through
as the parameter `softSet`.  The LLM stream (`processStream`) and the
single-shot LLM call (`promptAiSdk`) are external and appear as the oracle
record `StepEnv`.
-/

/-- A parsed tool call `(toolName, toolCallId, input)`. -/
structure ToolCall where
  toolName : String
  toolCallId : String := ""
  input : String := ""
deriving DecidableEq, Repr

/-- `STEP_WARNING_MESSAGE` (`core/constants`). -/
def STEP_WARNING_MESSAGE : String :=
  "I\x27ve made quite a few responses in a row. "
  ++ "Let me pause here to make sure we\x27re still on the right track. "
  ++ "Please let me know if you\x27d like me to continue or if you\x27d like to guide me in a different direction."

/-- The system-tagged user message appended when the step limit is hit. -/
def stepLimitMessage : Message :=
  userMessageStr (withSystemTags
    ("The assistant has responded too many times in a row. "
      ++ "The assistant\x27s turn has automatically been ended. "
      ++ "The maximum number of responses can be configured via maxAgentSteps."))

/-- `shouldAgentEndTurn({toolCalls, toolResults, hadToolCallError,
agentTemplate})`: end the turn on explicit `task_completed`/`end_turn`, or —
when the template does not list `task_completed` — when nothing outside the
soft set ran and no tool errored. -/
def shouldAgentEndTurn (softSet : List String) (toolCalls : List ToolCall)
    (toolResults : List Message) (hadToolCallError : Bool)
    (agentTemplate : AgentTemplate) : Bool :=
  let hasNoToolResults :=
    (toolCalls.filter fun call => !(softSet.contains call.toolName)).length == 0
      && (toolResults.filter fun result => !(softSet.contains result.toolName)).length == 0
      && !hadToolCallError
  let hasTaskCompleted := toolCalls.any fun call =>
    call.toolName == "task_completed" || call.toolName == "end_turn"
  let requiresExplicitCompletion := agentTemplate.toolNames.contains "task_completed"
  if requiresExplicitCompletion then hasTaskCompleted
  else hasTaskCompleted || hasNoToolResults

/-- The result record of `runAgentStep`. -/
structure RunAgentStepResult where
  agentState : AgentState
  fullResponse : String
  shouldEndTurn : Bool
  messageId : Option String := none
  nResponses : Option (List String) := none
deriving DecidableEq, Repr

/-- Effects observable outside one `runAgentStep` call: how many LLM
requests were issued, and the chunks `runAgentStep` itself wrote to the
response sink (chunks forwarded from inside the stream are attributed to the
stream oracle). -/
structure StepEffects where
  llmRequests : Nat := 0
  sinkChunks : List String := []
deriving DecidableEq, Repr

/-- An error thrown by the step (transport failure or bad multi-completion
response), carrying the optional HTTP status code the loop inspects. -/
structure ErrObj where
  message : String
  statusCode : Option Int := none
deriving DecidableEq, Repr

/-- The three outcomes of `JSON.parse(responsesString)` inside
`handleMultipleResponses`: a JSON array of strings, a non-array JSON value,
or a parse exception. -/
inductive NParseOutcome where
  | array (xs : List String)
  | nonArray
  | thrown
deriving DecidableEq, Repr

/-- The result `processStream` hands back to `runAgentStep`, plus the
messages the streaming path pushed onto the agent's message history. -/
structure StreamResult where
  fullResponse : String := ""
  hadToolCallError : Bool := false
  messageId : Option String := none
  toolCalls : List ToolCall := []
  toolResults : List Message := []
  appendedMessages : List Message := []
  creditsDelta : Int := 0
deriving DecidableEq, Repr

/-- Oracle inputs for one `runAgentStep` call: the step prompt from
`getAgentPrompt`, the stream outcome, and the `promptAiSdk` outcome for the
multi-completion path.  `transportError` makes the stream call throw. -/
structure StepEnv where
  stepPrompt : Option String := none
  stream : StreamResult := {}
  transportError : Option ErrObj := none
  promptResponse : String := ""
  promptParse : NParseOutcome := NParseOutcome.nonArray
  promptCreditsDelta : Int := 0
deriving Repr

/-- JS truthiness of an optional string (empty string is falsy). -/
def truthy (s : Option String) : Option String :=
  match s with
  | none => none
  | some s => if s = "" then none else some s

/-- `handleStepLimitExceeded({agentState, ...})`: warn on the sink, expire
user-prompt-scoped messages, append the forced-termination message, end the
turn without an LLM request. -/
def handleStepLimitExceeded (agentState : AgentState) :
    StepEffects × RunAgentStepResult :=
  ({ llmRequests := 0, sinkChunks := [STEP_WARNING_MESSAGE ++ "\n\n"] },
   { agentState :=
      { agentState with
        messageHistory :=
          expireMessages agentState.messageHistory TimeToLive.userPrompt
            ++ [stepLimitMessage] }
     fullResponse := STEP_WARNING_MESSAGE
     shouldEndTurn := true
     messageId := none })

/-- `handleMultipleResponses({agentState, model, n, ...})`: one `promptAiSdk`
request expecting a JSON array of `n` strings; a non-array outcome is
tolerated only for `n = 1`. -/
def handleMultipleResponses (env : StepEnv) (agentState : AgentState)
    (n : Nat) : Except ErrObj RunAgentStepResult :=
  let responsesString := env.promptResponse
  let agentState :=
    { agentState with
      creditsUsed := agentState.creditsUsed + env.promptCreditsDelta
      directCreditsUsed := agentState.directCreditsUsed + env.promptCreditsDelta }
  match env.promptParse with
  | NParseOutcome.array xs =>
    Except.ok { agentState := agentState, fullResponse := responsesString
                shouldEndTurn := false, messageId := none, nResponses := some xs }
  | NParseOutcome.nonArray =>
    if n > 1 then
      Except.error { message := "Expected JSON array response from LLM when n > 1" }
    else
      Except.ok { agentState := agentState, fullResponse := responsesString
                  shouldEndTurn := false, messageId := none
                  nResponses := some [responsesString] }
  | NParseOutcome.thrown =>
    if n > 1 then
      Except.error { message := "Invalid JSON response from LLM" }
    else
      Except.ok { agentState := agentState, fullResponse := responsesString
                  shouldEndTurn := false, messageId := none
                  nResponses := some [responsesString] }

/-- The prefix of the compaction summary message of `handleCompactCommand`. -/
def compactSummaryIntro : String :=
  "The following is a summary of the conversation between you and the user. "
  ++ "The conversation continues after this summary:\n\n"

/-- `handleCompactCommand({prompt, agentState, fullResponse, ...})`: on a
`/compact` or `compact` prompt, replace the whole history by one
system-tagged summary message. -/
def handleCompactCommand (prompt : Option String) (agentState : AgentState)
    (fullResponse : String) : AgentState :=
  let wasCompacted :=
    match prompt with
    | none => false
    | some p => p ≠ "" ∧ (p.toLower = "/compact" ∨ p.toLower = "compact")
  if wasCompacted then
    { agentState with
      messageHistory :=
        [userMessageStr (withSystemTags (compactSummaryIntro ++ fullResponse))] }
  else agentState

/-- The `STEP_PROMPT` message built and appended by `runAgentStep` (empty
when `getAgentPrompt` returned nothing, honouring JS truthiness). -/
def stepPromptMessages (env : StepEnv) : List Message :=
  match truthy env.stepPrompt with
  | none => []
  | some stepPrompt =>
    [{ role := Role.user, content := [ContentPart.text stepPrompt]
       tags := ["STEP_PROMPT"], timeToLive := some TimeToLive.agentStep
       keepDuringTruncation := true }]

/-- The history rewrite `runAgentStep` performs before contacting the LLM:
expire agent-step-scoped messages and append the step prompt. -/
def withStepPrompt (env : StepEnv) (agentState : AgentState) : AgentState :=
  { agentState with
    messageHistory :=
      expireMessages agentState.messageHistory TimeToLive.agentStep
        ++ stepPromptMessages env }

/-- The normal streaming path of `runAgentStep` after the stream finished:
record streamed history and credits, expire step-scoped messages, handle
`/compact`, decide `shouldEndTurn`, decrement the step budget. -/
def runNormalStream (softSet : List String) (env : StepEnv)
    (agentTemplate : AgentTemplate) (agentState : AgentState)
    (prompt : Option String) : RunAgentStepResult :=
  let fullResponse := env.stream.fullResponse
  let agentState :=
    { agentState with
      messageHistory := agentState.messageHistory ++ env.stream.appendedMessages
      creditsUsed := agentState.creditsUsed + env.stream.creditsDelta
      directCreditsUsed := agentState.directCreditsUsed + env.stream.creditsDelta }
  let agentState :=
    { agentState with
      messageHistory := expireMessages agentState.messageHistory TimeToLive.agentStep }
  let agentState := handleCompactCommand prompt agentState fullResponse
  let shouldEndTurn := shouldAgentEndTurn softSet env.stream.toolCalls
    env.stream.toolResults env.stream.hadToolCallError agentTemplate
  let agentState :=
    { agentState with stepsRemaining := agentState.stepsRemaining - 1 }
  { agentState := agentState, fullResponse := fullResponse
    shouldEndTurn := shouldEndTurn
    messageId := env.stream.messageId, nResponses := none }

/-- `runAgentStep(params)`: one LLM turn.  Checks the step budget, appends
the step prompt, then either answers via the multi-completion path
(`n` defined) or streams normally via `runNormalStream`. -/
def runAgentStep (softSet : List String) (env : StepEnv)
    (agentTemplate : AgentTemplate) (agentState : AgentState)
    (prompt : Option String) (n : Option Nat) :
    StepEffects × Except ErrObj RunAgentStepResult :=
  if agentState.stepsRemaining ≤ 0 then
    let r := handleStepLimitExceeded agentState
    (r.1, Except.ok r.2)
  else
    let agentState := withStepPrompt env agentState
    match n with
    | some nValue =>
      ({ llmRequests := 1, sinkChunks := [] },
       handleMultipleResponses env agentState nValue)
    | none =>
      match env.transportError with
      | some e => ({ llmRequests := 1, sinkChunks := [] }, Except.error e)
      | none =>
        ({ llmRequests := 1, sinkChunks := [] },
         Except.ok (runNormalStream softSet env agentTemplate agentState prompt))

/-! ## Tool dispatcher (`tools/tool-executor.ts`)

`parseRawToolCall`/`parseRawCustomToolCall` live in `tools/parsers`, which is
not under `src/`; the parse outcome is the parameter `parsed`.  The tool
handler and the remote `requestToolCall` contract are oracles.
-/

/-- The outcome of parsing a raw tool call: a parsed call, or a
`ToolCallError` (which may or may not still carry a tool name). -/
inductive ParsedToolCall where
  | parsedOk (toolName : String) (toolCallId : String) (input : String)
  | parseError (toolName : Option String) (error : String)
deriving DecidableEq, Repr

/-- The tool name recorded on a parse outcome. -/
def ParsedToolCall.nameOf : ParsedToolCall → Option String
  | ParsedToolCall.parsedOk toolName _ _ => some toolName
  | ParsedToolCall.parseError toolName _ => toolName

/-- Events a dispatch emits on the response sink. -/
inductive SinkEvent where
  | errorEvent (message : String)
  | toolCallEvent (toolCallId : String) (toolName : String)
  | toolResultEvent (toolCallId : String) (toolName : String)
deriving DecidableEq, Repr

/-- The observable effects of one dispatch: sink events, whether a handler
ran, and what was pushed to the `toolCalls`/`toolResults` accumulators and
the message history. -/
structure ExecEffects where
  events : List SinkEvent := []
  handlerInvoked : Bool := false
  toolCallsPushed : List ToolCall := []
  toolResultsPushed : List Message := []
  historyAppended : List Message := []
deriving DecidableEq, Repr

/-- The restricted-tool refusal of `executeToolCall`. -/
def restrictedToolMessage (toolName : String) : String :=
  "Tool `" ++ toolName ++ "` is not currently available. "
  ++ "Make sure to only use tools provided at the start of the conversation "
  ++ "AND that you most recently have permission to use."

/-- The restricted-tool refusal of `executeCustomToolCall`. -/
def restrictedCustomToolMessage (toolName : String) : String :=
  "Tool `" ++ toolName ++ "` is not currently available. "
  ++ "Make sure to only use tools listed in the system instructions."

/-- `executeToolCall(params)` for native tools: refuse tools outside the
template's `toolNames` (unless the call came from the programmatic handler)
with a lone error event; surface parse errors likewise; otherwise emit
`tool_call`, run the handler (output `handlerOutput`), emit `tool_result`
and append it to history when not excluded. -/
def executeToolCall (parsed : ParsedToolCall) (toolName : String)
    (agentTemplate : AgentTemplate) (fromHandleSteps : Bool)
    (excludeToolFromMessageHistory : Bool) (skipDirectResultPush : Bool)
    (handlerOutput : List ContentPart) : ExecEffects :=
  let restricted :=
    match truthy parsed.nameOf with
    | some name => !(agentTemplate.toolNames.contains name) && !fromHandleSteps
    | none => false
  if restricted then { events := [SinkEvent.errorEvent (restrictedToolMessage toolName)] }
  else
    match parsed with
    | ParsedToolCall.parseError _ e => { events := [SinkEvent.errorEvent e] }
    | ParsedToolCall.parsedOk parsedName toolCallId input =>
      let toolResult : Message :=
        { role := Role.tool, toolName := toolName, toolCallId := toolCallId
          content := handlerOutput }
      { events := [SinkEvent.toolCallEvent toolCallId toolName,
                   SinkEvent.toolResultEvent toolCallId toolName]
        handlerInvoked := true
        toolCallsPushed := [{ toolName := parsedName, toolCallId := toolCallId
                              input := input }]
        toolResultsPushed := [toolResult]
        historyAppended :=
          if !excludeToolFromMessageHistory && !skipDirectResultPush then [toolResult]
          else [] }

/-- `executeCustomToolCall(params)` for custom/MCP tools: like
`executeToolCall` but a namespaced name whose `server/` prefix is a
configured MCP server escapes the restriction, and an aborted signal
suppresses the remote call and the result events. -/
def executeCustomToolCall (parsed : ParsedToolCall) (toolName : String)
    (agentTemplate : AgentTemplate) (fromHandleSteps : Bool)
    (excludeToolFromMessageHistory : Bool) (skipDirectResultPush : Bool)
    (signalAborted : Bool) (requestOutput : List ContentPart) : ExecEffects :=
  let restricted :=
    match truthy parsed.nameOf with
    | some name =>
      !(agentTemplate.toolNames.contains name) && !fromHandleSteps
        && !(name.contains '/'
              && agentTemplate.mcpServers.contains ((name.splitOn "/").headD ""))
    | none => false
  if restricted then
    { events := [SinkEvent.errorEvent (restrictedCustomToolMessage toolName)] }
  else
    match parsed with
    | ParsedToolCall.parseError _ e => { events := [SinkEvent.errorEvent e] }
    | ParsedToolCall.parsedOk parsedName toolCallId input =>
      let callEvent := SinkEvent.toolCallEvent toolCallId toolName
      let pushedCall : ToolCall :=
        { toolName := parsedName, toolCallId := toolCallId, input := input }
      if signalAborted then
        { events := [callEvent], toolCallsPushed := [pushedCall] }
      else
        let toolResult : Message :=
          { role := Role.tool, toolName := toolName, toolCallId := toolCallId
            content := requestOutput }
        { events := [callEvent, SinkEvent.toolResultEvent toolCallId toolName]
          handlerInvoked := true
          toolCallsPushed := [pushedCall]
          toolResultsPushed := [toolResult]
          historyAppended :=
            if !excludeToolFromMessageHistory && !skipDirectResultPush then [toolResult]
            else [] }

/-! ## Generator registry (`core/programmatic/generator-cache.ts`)

The process-wide registry is threaded explicitly as a `GenRegistry` value.
The JS registry stores live generator objects that advance in place; here a
stored script is re-written to its remaining suffix whenever the generator
is resumed, which models the same observable registry content.
(`clearProposedContentForRun` touches an external store and has no
observable effect in this model.)
-/

structure GenRegistry where
  generators : List (String × GenScript) := []
  stepAll : List String := []
deriving DecidableEq, Repr

/-- `getGenerator(runId)`. -/
def getGenerator (reg : GenRegistry) (runId : String) : Option GenScript :=
  (reg.generators.find? fun p => p.1 == runId).map fun p => p.2

/-- `setGenerator(runId, generator)`. -/
def setGenerator (reg : GenRegistry) (runId : String) (generator : GenScript) :
    GenRegistry :=
  if (reg.generators.find? fun p => p.1 == runId).isSome then
    { reg with generators := reg.generators.map fun p =>
        if p.1 == runId then (runId, generator) else p }
  else { reg with generators := reg.generators ++ [(runId, generator)] }

/-- `clearGenerator(runId)`: removes both the generator and the step-all
membership. -/
def clearGenerator (reg : GenRegistry) (runId : String) : GenRegistry :=
  { generators := reg.generators.filter fun p => p.1 != runId
    stepAll := reg.stepAll.filter fun r => r != runId }

/-- `isInStepAllMode(runId)`. -/
def isInStepAllMode (reg : GenRegistry) (runId : String) : Bool :=
  reg.stepAll.contains runId

/-- `addToStepAllMode(runId)`. -/
def addToStepAllMode (reg : GenRegistry) (runId : String) : GenRegistry :=
  if reg.stepAll.contains runId then reg
  else { reg with stepAll := reg.stepAll ++ [runId] }

/-- `removeFromStepAllMode(runId)`. -/
def removeFromStepAllMode (reg : GenRegistry) (runId : String) : GenRegistry :=
  { reg with stepAll := reg.stepAll.filter fun r => r != runId }

/-! ## Programmatic step (`run-programmatic-step.ts`)

`executeSingleToolCall`/`executeTextWithToolCalls` are abstracted as the
oracle `toolExec`, giving for the `k`-th executed call of this resumption
either the messages it appends to history or a thrown error.
-/

/-- The result record of `runProgrammaticStep`. -/
structure ProgResult where
  agentState : AgentState
  endTurn : Bool
  stepNumber : Int
  generateN : Option Nat := none
deriving DecidableEq, Repr

/-- The state of the `do … while(true)` resumption loop of
`runProgrammaticStep` when it stops: the script suffix the generator has not
consumed, the mutated agent state, the advanced step number, the bookkeeping
flags, and a pending thrown error if one escaped. -/
structure ProgLoopOut where
  remaining : GenScript
  agentState : AgentState
  stepNumber : Int
  endTurn : Bool := false
  generateN : Option Nat := none
  stepAllRequested : Bool := false
  errorMsg : Option String := none
deriving DecidableEq, Repr

/-- The resumption loop: resume the generator, validate and act on each
yield.  `STEP`/`STEP_ALL`/`GENERATE_N` break; `STEP_TEXT` and plain tool
calls execute work via `toolExec` and continue; a plain tool call advances
`stepNumber` and `end_turn` breaks with `endTurn = true`; exhaustion of the
script is the generator finishing (`endTurn = true`). -/
def progLoop (toolExec : Nat → Except String (List Message)) :
    GenScript → Nat → AgentState → Int → ProgLoopOut
  | [], _, st, stepNumber =>
    { remaining := [], agentState := st, stepNumber := stepNumber, endTurn := true }
  | GenNext.thrown msg :: rest, _, st, stepNumber =>
    { remaining := rest, agentState := st, stepNumber := stepNumber
      errorMsg := some msg }
  | GenNext.yielded v :: rest, callIdx, st, stepNumber =>
    match v with
    | YieldValue.invalid =>
      { remaining := rest, agentState := st, stepNumber := stepNumber
        errorMsg := some "Invalid yield value from handleSteps" }
    | YieldValue.STEP =>
      { remaining := rest, agentState := st, stepNumber := stepNumber }
    | YieldValue.STEP_ALL =>
      { remaining := rest, agentState := st, stepNumber := stepNumber
        stepAllRequested := true }
    | YieldValue.GENERATE_N nValue =>
      { remaining := rest, agentState := st, stepNumber := stepNumber
        generateN := some nValue, endTurn := false }
    | YieldValue.STEP_TEXT _ =>
      match toolExec callIdx with
      | Except.error e =>
        { remaining := rest, agentState := st, stepNumber := stepNumber
          errorMsg := some e }
      | Except.ok appended =>
        progLoop toolExec rest (callIdx + 1)
          { st with messageHistory := st.messageHistory ++ appended } stepNumber
    | YieldValue.toolCall name _ _ =>
      match toolExec callIdx with
      | Except.error e =>
        { remaining := rest, agentState := st, stepNumber := stepNumber
          errorMsg := some e }
      | Except.ok appended =>
        let st := { st with messageHistory := st.messageHistory ++ appended }
        let stepNumber := stepNumber + 1
        if name = "end_turn" then
          { remaining := rest, agentState := st, stepNumber := stepNumber
            endTurn := true }
        else progLoop toolExec rest (callIdx + 1) st stepNumber

/-- `runProgrammaticStep(params)`: fetch or create the generator for the
run, honour step-all mode, resume the generator via `progLoop`, then apply
the `catch` (handler errors become an `endTurn = true` result with the error
recorded on the state) and the `finally` (clear the registry entry only when
the *local* `endTurn` flag was set — which a thrown handler error leaves
`false`).  The two precondition throws surface as `Except.error`. -/
def runProgrammaticStep (toolExec : Nat → Except String (List Message))
    (reg : GenRegistry) (template : AgentTemplate) (agentState : AgentState)
    (stepsComplete : Bool) (stepNumber : Int) :
    Except String (GenRegistry × ProgResult) :=
  match template.handleSteps with
  | none => Except.error ("No step handler found for agent template " ++ template.id)
  | some handlerScript =>
    match agentState.runId with
    | none => Except.error "Agent state has no run ID"
    | some runId =>
      let existingGenerator := getGenerator reg runId
      let activeGenerator := existingGenerator.getD handlerScript
      let reg := if existingGenerator.isNone then setGenerator reg runId activeGenerator
                 else reg
      if isInStepAllMode reg runId ∧ ¬stepsComplete then
        Except.ok (reg, { agentState := agentState, endTurn := false
                          stepNumber := stepNumber })
      else
        let reg := if isInStepAllMode reg runId then removeFromStepAllMode reg runId
                   else reg
        let out := progLoop toolExec activeGenerator 0 agentState stepNumber
        let reg := if out.stepAllRequested then addToStepAllMode reg runId else reg
        match out.errorMsg with
        | none =>
          let reg := if out.endTurn then clearGenerator reg runId
                     else setGenerator reg runId out.remaining
          Except.ok (reg, { agentState := out.agentState, endTurn := out.endTurn
                            stepNumber := out.stepNumber
                            generateN := out.generateN })
        | some e =>
          let errorMessage :=
            "Error executing handleSteps for agent " ++ template.id ++ ": " ++ e
          let st := out.agentState
          let st :=
            { st with
              messageHistory := st.messageHistory ++ [assistantMessage errorMessage]
              output := some { (st.output.getD {}) with error := some errorMessage } }
          let reg := setGenerator reg runId out.remaining
          Except.ok (reg, { agentState := st, endTurn := true
                            stepNumber := out.stepNumber + 1, generateN := none })

/-! ## Agent loop (`run-agent-loop.ts`)

External collaborators appear in `LoopEnv`: the abort signal is the sequence
of values its successive `signal.aborted` reads return (indexed by read
count: read `0` is the pre-start check, each loop iteration consumes one
read, and the status decision at finalization consumes one more);
`startAgentRun`, `callTokenCountAPI`, `getAgentPrompt`, the per-iteration
step oracle and the programmatic tool-execution oracle are functions;
`getAgentOutput` (`util/agent-output`, not under `src/`) is modelled from
the spec as the injected output-derivation rule.  `addAgentStep` and logging
have no observable effect here and are dropped.
-/

/-- Terminal run statuses passed to `finishAgentRun`. -/
inductive RunStatus where
  | completed
  | cancelled
  | failed
deriving DecidableEq, Repr

/-- One `finishAgentRun` invocation. -/
structure FinishCall where
  runId : String
  status : RunStatus
  totalSteps : Int
  errorMessage : Option String := none
deriving DecidableEq, Repr

/-- The `output` value `loopAgentSteps` returns. -/
inductive AgentOutput where
  | errorOutput (message : String) (statusCode : Option Int)
  | valueOutput (value : String)
deriving DecidableEq, Repr

/-- Oracle inputs of one `loopAgentSteps` run. -/
structure LoopEnv where
  /-- Successive `signal.aborted` reads. -/
  signal : Nat → Bool
  /-- `startAgentRun` result; `none` is a falsy run id. -/
  startRunId : Option String := none
  /-- `getAgentPrompt({type: instructionsPrompt})`. -/
  instructionsPrompt : Option String := none
  /-- The assembled system prompt. -/
  systemPrompt : String := ""
  /-- The content `buildUserMessageContent(prompt, params, content)` builds
  for the initial user message (helper embodied in part 005; no claim
  inspects this content, so it is an oracle here). -/
  builtUserContent : List ContentPart := []
  /-- `additionalSystemPrompts[prompt]` when `prompt` is a key of that map. -/
  additionalSystemPrompt : Option String := none
  /-- `callTokenCountAPI` per iteration; `none` is the error outcome. -/
  tokenCount : Nat → Option Nat := fun _ => none
  /-- The local `countTokensJson` fallback estimate per iteration. -/
  tokenEstimate : Nat → Nat := fun _ => 0
  /-- The `runAgentStep` oracle inputs per iteration. -/
  stepEnvs : Nat → StepEnv := fun _ => {}
  /-- The programmatic tool-execution oracle, per iteration and call. -/
  toolExec : Nat → Nat → Except String (List Message) := fun _ _ => Except.ok []
  /-- Modelled from the spec: `getAgentOutput` (`util/agent-output`, not
  under `src/`) — "output is read from state or derived by the template's
  output rule" (§4.5); kept as the injected derivation rule itself. -/
  getAgentOutput : AgentState → AgentTemplate → AgentOutput :=
    fun _ _ => AgentOutput.valueOutput ""
  /-- `TOOLS_WHICH_WONT_FORCE_NEXT_STEP` threaded to `runAgentStep`. -/
  softSet : List String := []

/-- The outcome of `loopAgentSteps`: the final registry, the
`finishAgentRun` log, and either the returned `(agentState, output)` or the
exception the function re-raised. -/
structure LoopOutcome where
  registry : GenRegistry
  finishCalls : List FinishCall
  result : Except ErrObj (AgentState × AgentOutput)

/-- The mutable locals of the main loop. -/
structure LoopState where
  checkIdx : Nat
  iter : Nat
  reg : GenRegistry
  st : AgentState
  shouldEndTurn : Bool
  hasRetriedOutputSchema : Bool
  currentPrompt : Option String
  nResponses : Option (List String)
  totalSteps : Int

/-- The post-loop epilogue: optionally expire user-prompt messages, read the
signal once more for the status, call `finishAgentRun`, and return the state
with the derived output. -/
def finishLoop (env : LoopEnv) (template : AgentTemplate)
    (clearUserPromptMessagesAfterResponse : Bool) (runId : String)
    (checkIdx : Nat) (reg : GenRegistry) (st : AgentState) (totalSteps : Int) :
    LoopOutcome :=
  let st :=
    if clearUserPromptMessagesAfterResponse then
      { st with messageHistory := expireMessages st.messageHistory TimeToLive.userPrompt }
    else st
  let status := if env.signal checkIdx then RunStatus.cancelled else RunStatus.completed
  { registry := reg
    finishCalls := [{ runId := runId, status := status, totalSteps := totalSteps }]
    result := Except.ok (st, env.getAgentOutput st template) }

/-- The `catch` block of `loopAgentSteps`: finish the run as `cancelled` or
`failed`, re-raise HTTP 402 errors, and otherwise return an error output. -/
def catchLoop (env : LoopEnv) (runId : String) (checkIdx : Nat)
    (reg : GenRegistry) (st : AgentState) (totalSteps : Int) (e : ErrObj) :
    LoopOutcome :=
  let status := if env.signal checkIdx then RunStatus.cancelled else RunStatus.failed
  let finishCalls := [{ runId := runId, status := status, totalSteps := totalSteps
                        errorMessage := some e.message : FinishCall }]
  if e.statusCode = some 402 then
    { registry := reg, finishCalls := finishCalls, result := Except.error e }
  else
    { registry := reg, finishCalls := finishCalls
      result := Except.ok (st,
        AgentOutput.errorOutput ("Agent run error: " ++ e.message) e.statusCode) }

/-- The kept user message appended by the output-schema retry. -/
def outputSchemaRetryMessage : Message :=
  { role := Role.user
    content := [ContentPart.text (withSystemTags
      ("You must use the \"set_output\" tool to provide a result that matches "
        ++ "the output schema before ending your turn. "
        ++ "The output schema is required for this agent."))]
    keepDuringTruncation := true }

/-- One turn of the `while (true)` loop, recursing on `fuel`; `none` means
the fuel ran out before the loop terminated. -/
def loopIter (env : LoopEnv) (template : AgentTemplate)
    (clearUserPromptMessagesAfterResponse : Bool) (runId : String) :
    Nat → LoopState → Option LoopOutcome
  | 0, _ => none
  | fuel + 1, s =>
    let totalSteps := s.totalSteps + 1
    if env.signal s.checkIdx then
      some (finishLoop env template clearUserPromptMessagesAfterResponse runId
        (s.checkIdx + 1) s.reg s.st totalSteps)
    else
      let st := { s.st with
        contextTokenCount := (env.tokenCount s.iter).getD (env.tokenEstimate s.iter) }
      let progOutcome :
          Except String (GenRegistry × Option Nat × AgentState × Int × Bool) :=
        if template.handleSteps.isSome then
          match runProgrammaticStep (env.toolExec s.iter) s.reg template st
              s.shouldEndTurn totalSteps with
          | Except.error e => Except.error e
          | Except.ok (reg, pr) =>
            Except.ok (reg, pr.generateN, pr.agentState, pr.stepNumber, pr.endTurn)
        else Except.ok (s.reg, none, st, totalSteps, s.shouldEndTurn)
      match progOutcome with
      | Except.error e =>
        some (catchLoop env runId (s.checkIdx + 1) s.reg st totalSteps
          { message := e })
      | Except.ok (reg, n, st, totalSteps, shouldEndTurn) =>
        let retry := template.outputSchema ∧ st.output = none ∧ shouldEndTurn
          ∧ ¬s.hasRetriedOutputSchema
        let hasRetriedOutputSchema := if retry then true else s.hasRetriedOutputSchema
        let st :=
          if retry then
            { st with messageHistory := st.messageHistory ++ [outputSchemaRetryMessage] }
          else st
        let shouldEndTurn := if retry then false else shouldEndTurn
        if shouldEndTurn then
          some (finishLoop env template clearUserPromptMessagesAfterResponse runId
            (s.checkIdx + 1) reg st totalSteps)
        else
          match runAgentStep env.softSet (env.stepEnvs s.iter) template st
              s.currentPrompt n with
          | (_, Except.error e) =>
            some (catchLoop env runId (s.checkIdx + 1) reg st totalSteps e)
          | (_, Except.ok r) =>
            loopIter env template clearUserPromptMessagesAfterResponse runId fuel
              { checkIdx := s.checkIdx + 1, iter := s.iter + 1, reg := reg
                st := r.agentState, shouldEndTurn := r.shouldEndTurn
                hasRetriedOutputSchema := hasRetriedOutputSchema
                currentPrompt := none, nResponses := r.nResponses
                totalSteps := totalSteps }

/-- The initial message history built at loop start: existing messages, the
`USER_PROMPT` message (plus an additional-system-prompt message when the
prompt is a known command), and the instructions prompt. -/
def buildInitialMessages (env : LoopEnv) (existingMessages : List Message)
    (prompt : Option String) (spawnParamsNonempty contentNonempty : Bool) :
    List Message :=
  let hasUserMessage :=
    (truthy prompt).isSome || spawnParamsNonempty || contentNonempty
  existingMessages
    ++ (if hasUserMessage then
          [{ role := Role.user, content := env.builtUserContent
             tags := ["USER_PROMPT"], keepDuringTruncation := true }]
          ++ (match truthy prompt, env.additionalSystemPrompt with
              | some _, some additional =>
                [userMessageStr (withSystemInstructionTags additional)]
              | _, _ => [])
        else [])
    ++ (match truthy env.instructionsPrompt with
        | some instructionsPrompt =>
          [{ role := Role.user, content := [ContentPart.text instructionsPrompt]
             tags := ["INSTRUCTIONS_PROMPT"]
             keepLastTags := ["INSTRUCTIONS_PROMPT"] }]
        | none => [])

/-- `loopAgentSteps(params)`: short-circuit when already cancelled, start the
run, build the initial history, then drive the main loop.  The template is
taken as already resolved (the registry fallback of the source is upstream
of everything the claims touch). -/
def loopAgentSteps (env : LoopEnv) (template : AgentTemplate)
    (reg : GenRegistry) (initialAgentState : AgentState)
    (prompt : Option String) (spawnParamsNonempty contentNonempty : Bool)
    (clearUserPromptMessagesAfterResponse : Bool) (fuel : Nat) :
    Option LoopOutcome :=
  if env.signal 0 then
    some { registry := reg, finishCalls := []
           result := Except.ok (initialAgentState,
             AgentOutput.errorOutput "Run cancelled by user" none) }
  else
    match env.startRunId with
    | none =>
      some { registry := reg, finishCalls := []
             result := Except.error { message := "Failed to start agent run" } }
    | some runId =>
      let st := { initialAgentState with runId := some runId }
      let st :=
        { st with
          messageHistory := buildInitialMessages env st.messageHistory prompt
            spawnParamsNonempty contentNonempty
          systemPrompt := env.systemPrompt }
      loopIter env template clearUserPromptMessagesAfterResponse runId fuel
        { checkIdx := 1, iter := 0, reg := reg, st := st, shouldEndTurn := false
          hasRetriedOutputSchema := false, currentPrompt := prompt
          nResponses := none, totalSteps := 0 }

/-! ## Spec-side statements

Definitions in this section follow the wording of the specification, for
comparison with the source-derived functions above.
-/

/-- Claim wording: `hasExplicitEnd` is true iff some tool call this turn is
`task_completed` or `end_turn`. -/
def specHasExplicitEnd (toolCalls : List ToolCall) : Prop :=
  ∃ c ∈ toolCalls, c.toolName = "task_completed" ∨ c.toolName = "end_turn"

/-- Claim wording: `hasNoWork` is true iff no tool call and no tool result
this turn has a name outside `TOOLS_WHICH_WONT_FORCE_NEXT_STEP` and no tool
call errored. -/
def specHasNoWork (softSet : List String) (toolCalls : List ToolCall)
    (toolResults : List Message) (hadToolCallError : Bool) : Prop :=
  (∀ c ∈ toolCalls, c.toolName ∈ softSet)
    ∧ (∀ r ∈ toolResults, r.toolName ∈ softSet)
    ∧ hadToolCallError = false

/-- Claim wording for `filterUnfinishedToolCalls`: a content part survives
iff it is not a tool-call part, or some `tool` message anywhere in the
history carries the same `toolCallId`. -/
def specPartAnswered (messages : List Message) : ContentPart → Prop
  | ContentPart.toolCallPart id _ =>
    ∃ tm ∈ messages, tm.role = Role.tool ∧ tm.toolCallId = id
  | _ => True

instance (messages : List Message) (p : ContentPart) :
    Decidable (specPartAnswered messages p) := by
  cases p <;> simp only [specPartAnswered] <;> infer_instance

/-- Claim wording for the whole filter: remove exactly the unanswered
assistant tool-call parts, drop assistant messages left empty, keep all
other messages unchanged and in order. -/
def specFilterUnfinished (messages : List Message) : List Message :=
  messages.filterMap fun m =>
    if m.role ≠ Role.assistant then some m
    else
      let c := m.content.filter fun p => decide (specPartAnswered messages p)
      if c.isEmpty then none else some { m with content := c }

/-! ## Concrete instances for counterexamples and witnesses -/

/-- A token-cost instance of the modelled `countTokensJson`: 100 tokens for
messages tagged `BIG`, 10 for anything else (in particular for
`replacementMessage`). -/
def tokenCostExample : Message → Nat :=
  fun m => if m.tags = ["BIG"] then 100 else 10

/-- A 100-token message. -/
def bigMessageExample : Message :=
  { role := Role.user, content := [], tags := ["BIG"] }

/-- An 800-token history of eight plain user messages. -/
def overLimitHistory : List Message := List.replicate 8 bigMessageExample

/-- A template whose programmatic handler yields a schema-invalid value on
its first resumption, making `handleSteps` throw. -/
def progThrowTemplate : AgentTemplate :=
  { id := "prog-agent", handleSteps := some [GenNext.yielded YieldValue.invalid] }

/-- A template with no programmatic handler. -/
def plainTemplate : AgentTemplate := { id := "plain-agent" }

/-- A loop environment whose abort signal never fires. -/
def loopEnvNoAbort : LoopEnv :=
  { signal := fun _ => false, startRunId := some "r1" }

/-- A loop environment whose abort signal has fired before the run starts
(and stays fired). -/
def loopEnvAborted : LoopEnv :=
  { signal := fun _ => true, startRunId := some "r9" }

/-- A fresh agent state. -/
def plainState : AgentState := { agentId := "a1" }

/-- A template that requires explicit completion. -/
def taskTemplate : AgentTemplate := { id := "t", toolNames := ["task_completed"] }

/-- A step oracle whose stream produced one `task_completed` call. -/
def taskStreamEnv : StepEnv :=
  { stream := { toolCalls := [{ toolName := "task_completed" }] } }

/-- A state with steps left in the budget. -/
def readyState : AgentState := { agentId := "a", stepsRemaining := 3 }

/-- `plainState` with user-prompt-scoped messages expired. -/
def expiredPlainState : AgentState :=
  { plainState with
    messageHistory := expireMessages plainState.messageHistory TimeToLive.userPrompt }

/-! ## Helper lemmas -/

theorem mem_respondedToolCallIds (messages : List Message) (id : String) :
    id ∈ respondedToolCallIds messages
      ↔ ∃ tm ∈ messages, tm.role = Role.tool ∧ tm.toolCallId = id := by
  simp only [respondedToolCallIds, List.mem_map, List.mem_filter, beq_iff_eq]
  constructor
  · rintro ⟨m, ⟨hm, hrole⟩, hid⟩
    exact ⟨m, hm, hrole, hid⟩
  · rintro ⟨m, hm, hrole, hid⟩
    exact ⟨m, ⟨hm, hrole⟩, hid⟩

theorem filterUnfinished_eq_spec (messages : List Message) :
    filterUnfinishedToolCalls messages = specFilterUnfinished messages := by
  unfold filterUnfinishedToolCalls specFilterUnfinished
  apply List.filterMap_congr
  intro m _
  have hcontent : (m.content.filter fun part =>
      match part with
      | ContentPart.toolCallPart id _ => (respondedToolCallIds messages).contains id
      | _ => true)
      = m.content.filter fun p => decide (specPartAnswered messages p) := by
    apply List.filter_congr
    intro p _
    cases p with
    | toolCallPart id name => simp [specPartAnswered, mem_respondedToolCallIds]
    | text t => simp [specPartAnswered]
    | image d => simp [specPartAnswered]
  by_cases hrole : m.role = Role.assistant
  · simp only [hrole, bne_self_eq_false, Bool.false_eq_true, if_false, ne_eq,
      not_true_eq_false, hcontent]
    by_cases hempty : (m.content.filter fun p => decide (specPartAnswered messages p)) = []
    · simp [hempty]
    · simp [hempty, List.length_pos]
  · have hb : (m.role != Role.assistant) = true := by simp [hrole]
    simp [hb, hrole]

/-! ## C9 -/

/-- C9: when the history already fits — `countTokensJson(messages) <
maxTotalTokens − systemTokens` — `trimMessagesToFitTokenLimit` returns the
input message sequence unchanged: no simplification, dropping or
placeholder insertion occurs. -/
theorem trimMessages_fixed_point_under_limit (tc : Message → Nat)
    (simplify : List ContentPart → List ContentPart) (messages : List Message)
    (systemTokens maxTotalTokens : Int)
    (h : (countTokensList tc messages : Int) < maxTotalTokens - systemTokens) :
    trimMessagesToFitTokenLimit tc simplify messages systemTokens maxTotalTokens
      = messages := by
  unfold trimMessagesToFitTokenLimit
  simp only [if_pos h]

/-- Witness for `trimMessages_fixed_point_under_limit` at a concrete
history, budget and token function. -/
theorem trimMessages_fixed_point_under_limit_witness :
    ((countTokensList (fun _ => 1) [userMessageStr "hi"] : Int) < 100 - 10)
      ∧ trimMessagesToFitTokenLimit (fun _ => 1) (fun c => c)
          [userMessageStr "hi"] 10 100 = [userMessageStr "hi"] :=
  ⟨by decide, trimMessages_fixed_point_under_limit _ _ _ _ _ (by decide)⟩

/-! ## C2 -/

/-- C2: the code violates the claimed bound.  On a history of eight
100-token messages with `systemTokens = 0` and `maxTotalTokens = 100`,
`trimMessagesToFitTokenLimit` stops dropping once `(max − required) × (1 −
0.5) = 50` tokens are removed, keeping seven of the eight messages plus the
placeholder: 710 tokens remain, far above the 100-token limit the claim
asserts.  (The placeholder part of the claim does hold: the dropped run is
replaced by exactly one placeholder.) -/
theorem trimMessages_exceeds_limit_on_overLimitHistory :
    trimMessagesToFitTokenLimit tokenCostExample (fun c => c) overLimitHistory 0 100
        = replacementMessage :: List.replicate 7 bigMessageExample
      ∧ ¬ ((countTokensList tokenCostExample
            (trimMessagesToFitTokenLimit tokenCostExample (fun c => c)
              overLimitHistory 0 100) : Int) + 0 ≤ 100) := by
  decide

/-! ## C8 -/

/-- C8: `filterUnfinishedToolCalls` removes exactly the assistant tool-call
parts whose `toolCallId` has no matching `tool` message anywhere in the
history, drops assistant messages left empty, and keeps everything else
unchanged and in order (`specFilterUnfinished` is that description verbatim);
a spawned child with `includeMessageHistory` receives exactly the filtered
parent history followed by the one spawn-marker message, and an empty history
otherwise.  (`createAgentState` builds the child history from a fresh list,
so the parent's own history is untouched by construction.) -/
theorem spawned_child_history (freshId agentType : String)
    (agentTemplate : AgentTemplate) (parent : AgentState)
    (ctx : List (String × String)) :
    (createAgentState freshId agentType agentTemplate parent ctx).messageHistory
        = (if agentTemplate.includeMessageHistory then
            specFilterUnfinished parent.messageHistory ++ [spawnMarkerMessage agentType]
           else [])
      ∧ filterUnfinishedToolCalls parent.messageHistory
          = specFilterUnfinished parent.messageHistory := by
  refine ⟨?_, filterUnfinished_eq_spec _⟩
  unfold createAgentState
  by_cases h : agentTemplate.includeMessageHistory <;>
    simp [h, filterUnfinished_eq_spec]

/-! ## C5 -/

theorem spawnEntryMatches_iff (c s : ParsedAgentId) (cid sid : String)
    (hc : c.agentId = some cid) (hs : s.agentId = some sid) :
    spawnEntryMatches c cid s sid = true ↔ specCompatibleId c s := by
  unfold spawnEntryMatches specCompatibleId
  rw [hc, hs]
  rcases hp : c.publisherId with _ | p <;> rcases hv : c.version with _ | v <;>
    simp [hp, hv, Option.isSome] <;> tauto

theorem getMatchingSpawn_isSome_iff (parse : String → ParsedAgentId)
    (spawnableAgents : List String) (childFullAgentId : String) :
    (getMatchingSpawn parse spawnableAgents childFullAgentId).isSome = true
      ↔ ∃ s ∈ spawnableAgents,
          specCompatibleId (parse childFullAgentId) (parse s) := by
  unfold getMatchingSpawn
  rcases hc : (parse childFullAgentId).agentId with _ | cid
  · simp only [hc, Option.isSome_none, Bool.false_eq_true, false_iff]
    rintro ⟨s, -, hcompat⟩
    rw [specCompatibleId, hc] at hcompat
    simpa using hcompat.1
  · simp only [hc, List.find?_isSome]
    constructor
    · rintro ⟨s, hs, hmatch⟩
      refine ⟨s, hs, ?_⟩
      rcases hsid : (parse s).agentId with _ | sid
      · rw [hsid] at hmatch; simp at hmatch
      · rw [hsid] at hmatch
        exact (spawnEntryMatches_iff _ _ _ _ hc hsid).mp hmatch
    · rintro ⟨s, hs, hcompat⟩
      refine ⟨s, hs, ?_⟩
      rcases hsid : (parse s).agentId with _ | sid
      · exfalso
        rw [specCompatibleId, hsid, hc] at hcompat
        simp at hcompat
      · exact (spawnEntryMatches_iff _ _ _ _ hc hsid).mpr hcompat

/-- C5: spawn validation succeeds iff the parent template is one of the base
templates `{base, base-lite, base-max, base-experimental}` (which may spawn
anything), or the child's fully-qualified id matches some entry of the
parent's `spawnableAgents` under the compatible-id rule `specCompatibleId`
(equality on `(publisher, id, version)`, with publisher and/or version as
wildcards exactly when absent on the child); on failure the error carries
the descriptive message and the child template.  Stated for resolvable
child ids (`lookup` succeeds); an unresolvable id fails resolution before
any permission check. -/
theorem spawn_validation_iff (lookup : String → Option AgentTemplate)
    (parse : String → ParsedAgentId) (agentTypeStr : String)
    (parentAgentTemplate childTemplate : AgentTemplate)
    (hlookup : lookup agentTypeStr = some childTemplate) :
    ((∃ r, validateAndGetAgentTemplate lookup parse agentTypeStr parentAgentTemplate
        = Except.ok r)
      ↔ parentAgentTemplate.id ∈ BASE_AGENTS
        ∨ ∃ s ∈ parentAgentTemplate.spawnableAgents,
            specCompatibleId (parse agentTypeStr) (parse s))
    ∧ ((parentAgentTemplate.id ∉ BASE_AGENTS
          ∧ ¬ ∃ s ∈ parentAgentTemplate.spawnableAgents,
              specCompatibleId (parse agentTypeStr) (parse s)) →
        validateAndGetAgentTemplate lookup parse agentTypeStr parentAgentTemplate
          = Except.error ("Agent type " ++ parentAgentTemplate.id
              ++ " is not allowed to spawn child agent type " ++ agentTypeStr ++ ".")) := by
  have hval : validateAndGetAgentTemplate lookup parse agentTypeStr parentAgentTemplate
      = if BASE_AGENTS.contains parentAgentTemplate.id then
          Except.ok (childTemplate, agentTypeStr)
        else
          match getMatchingSpawn parse parentAgentTemplate.spawnableAgents agentTypeStr with
          | none =>
            Except.error ("Agent type " ++ parentAgentTemplate.id
              ++ " is not allowed to spawn child agent type " ++ agentTypeStr ++ ".")
          | some agentType => Except.ok (childTemplate, agentType) := by
    unfold validateAndGetAgentTemplate
    rw [hlookup]
  rw [hval]
  by_cases hbase : parentAgentTemplate.id ∈ BASE_AGENTS
  · have hb : BASE_AGENTS.contains parentAgentTemplate.id = true := by
      simpa using hbase
    rw [if_pos hb]
    exact ⟨⟨fun _ => Or.inl hbase, fun _ => ⟨_, rfl⟩⟩,
      fun h => absurd hbase h.1⟩
  · have hb : ¬ BASE_AGENTS.contains parentAgentTemplate.id = true := by
      simpa using hbase
    rw [if_neg hb]
    rcases hm : getMatchingSpawn parse parentAgentTemplate.spawnableAgents agentTypeStr
      with _ | s
    · have hno : ¬ ∃ s ∈ parentAgentTemplate.spawnableAgents,
          specCompatibleId (parse agentTypeStr) (parse s) := by
        rw [← getMatchingSpawn_isSome_iff parse parentAgentTemplate.spawnableAgents
          agentTypeStr]
        simp [hm]
      refine ⟨⟨?_, ?_⟩, fun _ => rfl⟩
      · rintro ⟨r, hr⟩
        simp at hr
      · rintro (h | h)
        · exact absurd h hbase
        · exact absurd h hno
    · have hyes : ∃ s ∈ parentAgentTemplate.spawnableAgents,
          specCompatibleId (parse agentTypeStr) (parse s) := by
        rw [← getMatchingSpawn_isSome_iff parse parentAgentTemplate.spawnableAgents
          agentTypeStr]
        simp [hm]
      refine ⟨⟨fun _ => Or.inr hyes, fun _ => ⟨_, rfl⟩⟩, ?_⟩
      rintro ⟨-, hno⟩
      exact absurd hyes hno

/-- Witness for `spawn_validation_iff`: a parent allowed to spawn
`deep/researcher@1.0` validates it successfully, with the parsed ids
matching on all three components. -/
theorem spawn_validation_iff_witness :
    ((fun s => if s = "deep/researcher@1.0" then some plainTemplate else none)
        "deep/researcher@1.0" = some plainTemplate)
    ∧ (∃ r, validateAndGetAgentTemplate
        (fun s => if s = "deep/researcher@1.0" then some plainTemplate else none)
        (fun s => if s = "deep/researcher@1.0" then
            { publisherId := some "deep", agentId := some "researcher"
              version := some "1.0" }
          else {})
        "deep/researcher@1.0"
        { id := "parent", spawnableAgents := ["deep/researcher@1.0"] }
        = Except.ok r) := by
  refine ⟨rfl, ?_⟩
  refine (spawn_validation_iff _ _ _ _ plainTemplate rfl).1.mpr (Or.inr ?_)
  exact ⟨"deep/researcher@1.0", by decide, by decide⟩

/-! ## C1 -/

theorem shouldAgentEndTurn_iff (softSet : List String) (toolCalls : List ToolCall)
    (toolResults : List Message) (hadToolCallError : Bool)
    (agentTemplate : AgentTemplate) :
    shouldAgentEndTurn softSet toolCalls toolResults hadToolCallError agentTemplate = true
      ↔ (if "task_completed" ∈ agentTemplate.toolNames
          then specHasExplicitEnd toolCalls
          else specHasExplicitEnd toolCalls
            ∨ specHasNoWork softSet toolCalls toolResults hadToolCallError) := by
  unfold shouldAgentEndTurn specHasExplicitEnd specHasNoWork
  by_cases h : "task_completed" ∈ agentTemplate.toolNames
  · have hb : agentTemplate.toolNames.contains "task_completed" = true := by simpa using h
    simp [h, hb, List.any_eq_true]
  · have hb : ¬ agentTemplate.toolNames.contains "task_completed" = true := by simpa using h
    simp only [h, if_neg hb, if_false]
    simp [List.any_eq_true, List.length_eq_zero, List.filter_eq_nil_iff,
      Bool.not_eq_true]
    rw [and_assoc]

theorem runAgentStep_transport_eq (softSet : List String) (env : StepEnv)
    (agentTemplate : AgentTemplate) (agentState : AgentState)
    (prompt : Option String) (e : ErrObj)
    (h : ¬ agentState.stepsRemaining ≤ 0) (htr : env.transportError = some e) :
    runAgentStep softSet env agentTemplate agentState prompt none
      = ({ llmRequests := 1, sinkChunks := [] }, Except.error e) := by
  unfold runAgentStep
  rw [if_neg h, htr]

theorem runAgentStep_normal_eq (softSet : List String) (env : StepEnv)
    (agentTemplate : AgentTemplate) (agentState : AgentState)
    (prompt : Option String)
    (h : ¬ agentState.stepsRemaining ≤ 0) (htr : env.transportError = none) :
    runAgentStep softSet env agentTemplate agentState prompt none
      = ({ llmRequests := 1, sinkChunks := [] },
         Except.ok (runNormalStream softSet env agentTemplate
           (withStepPrompt env agentState) prompt)) := by
  unfold runAgentStep
  rw [if_neg h, htr]

theorem runAgentStep_multi_eq (softSet : List String) (env : StepEnv)
    (agentTemplate : AgentTemplate) (agentState : AgentState)
    (prompt : Option String) (n : Nat)
    (h : ¬ agentState.stepsRemaining ≤ 0) :
    runAgentStep softSet env agentTemplate agentState prompt (some n)
      = ({ llmRequests := 1, sinkChunks := [] },
         handleMultipleResponses env (withStepPrompt env agentState) n) := by
  unfold runAgentStep
  rw [if_neg h]

/-- C1: on the normal streaming path of `runAgentStep` (step budget not
exhausted, no `n` parameter), the returned `shouldEndTurn` is exactly the
claimed formula: `hasExplicitEnd` iff some tool call is
`task_completed`/`end_turn`; `hasNoWork` iff no tool call and no tool result
is outside `TOOLS_WHICH_WONT_FORCE_NEXT_STEP` and no tool errored; the
result is `hasExplicitEnd` alone when the template lists `task_completed`,
and `hasExplicitEnd || hasNoWork` otherwise. -/
theorem runAgentStep_endTurn_formula (softSet : List String) (env : StepEnv)
    (agentTemplate : AgentTemplate) (agentState : AgentState)
    (prompt : Option String) (eff : StepEffects) (r : RunAgentStepResult)
    (hsteps : 0 < agentState.stepsRemaining)
    (hrun : runAgentStep softSet env agentTemplate agentState prompt none
      = (eff, Except.ok r)) :
    r.shouldEndTurn = true
      ↔ (if "task_completed" ∈ agentTemplate.toolNames
          then specHasExplicitEnd env.stream.toolCalls
          else specHasExplicitEnd env.stream.toolCalls
            ∨ specHasNoWork softSet env.stream.toolCalls env.stream.toolResults
                env.stream.hadToolCallError) := by
  cases htr : env.transportError with
  | some e =>
    rw [runAgentStep_transport_eq softSet env agentTemplate agentState prompt e
      (by omega) htr] at hrun
    simp at hrun
  | none =>
    rw [runAgentStep_normal_eq softSet env agentTemplate agentState prompt
      (by omega) htr] at hrun
    simp only [Prod.mk.injEq, Except.ok.injEq] at hrun
    rw [← hrun.2]
    exact shouldAgentEndTurn_iff softSet env.stream.toolCalls env.stream.toolResults
      env.stream.hadToolCallError agentTemplate

/-- Witness for `runAgentStep_endTurn_formula`: a turn whose stream produced
one `task_completed` call ends the turn. -/
theorem runAgentStep_endTurn_formula_witness :
    ∃ eff r, runAgentStep [] taskStreamEnv taskTemplate readyState none none
        = (eff, Except.ok r)
      ∧ (r.shouldEndTurn = true
          ↔ (if "task_completed" ∈ taskTemplate.toolNames
              then specHasExplicitEnd taskStreamEnv.stream.toolCalls
              else specHasExplicitEnd taskStreamEnv.stream.toolCalls
                ∨ specHasNoWork [] taskStreamEnv.stream.toolCalls
                    taskStreamEnv.stream.toolResults
                    taskStreamEnv.stream.hadToolCallError)) :=
  ⟨_, _, rfl,
    runAgentStep_endTurn_formula [] taskStreamEnv taskTemplate readyState none _ _
      (by decide) rfl⟩

/-! ## C7 -/

/-- C7: a step entered with `stepsRemaining ≤ 0` makes no LLM request, sends
`STEP_WARNING_MESSAGE` to the sink, replaces the history by the old history
with user-prompt-scoped (hence also agent-step-scoped) messages expired
followed by the one system-tagged forced-termination user message, and
returns `shouldEndTurn = true`. -/
theorem runAgentStep_step_limit (softSet : List String) (env : StepEnv)
    (agentTemplate : AgentTemplate) (agentState : AgentState)
    (prompt : Option String) (n : Option Nat)
    (h : agentState.stepsRemaining ≤ 0) :
    runAgentStep softSet env agentTemplate agentState prompt n
      = ({ llmRequests := 0, sinkChunks := [STEP_WARNING_MESSAGE ++ "\n\n"] },
         Except.ok
          { agentState :=
              { agentState with
                messageHistory :=
                  expireMessages agentState.messageHistory TimeToLive.userPrompt
                    ++ [stepLimitMessage] }
            fullResponse := STEP_WARNING_MESSAGE
            shouldEndTurn := true
            messageId := none }) := by
  unfold runAgentStep
  rw [if_pos h]
  rfl

/-- Witness for `runAgentStep_step_limit` at a concrete exhausted state. -/
theorem runAgentStep_step_limit_witness :
    (plainState.stepsRemaining ≤ 0)
      ∧ runAgentStep [] {} plainTemplate plainState none none
          = ({ llmRequests := 0, sinkChunks := [STEP_WARNING_MESSAGE ++ "\n\n"] },
             Except.ok
              { agentState :=
                  { plainState with
                    messageHistory :=
                      expireMessages plainState.messageHistory TimeToLive.userPrompt
                        ++ [stepLimitMessage] }
                fullResponse := STEP_WARNING_MESSAGE
                shouldEndTurn := true
                messageId := none }) :=
  ⟨by decide,
   runAgentStep_step_limit [] {} plainTemplate plainState none none (by decide)⟩

/-! ## C10 -/

theorem handleMultipleResponses_stepsRemaining (env : StepEnv)
    (agentState : AgentState) (n : Nat) (r : RunAgentStepResult)
    (h : handleMultipleResponses env agentState n = Except.ok r) :
    r.agentState.stepsRemaining = agentState.stepsRemaining := by
  unfold handleMultipleResponses at h
  cases hp : env.promptParse with
  | array xs =>
    rw [hp] at h
    simp only [Except.ok.injEq] at h
    rw [← h]
  | nonArray =>
    rw [hp] at h
    by_cases hn : n > 1
    · simp [hn] at h
    · simp only [if_neg hn, Except.ok.injEq] at h
      rw [← h]
  | thrown =>
    rw [hp] at h
    by_cases hn : n > 1
    · simp [hn] at h
    · simp only [if_neg hn, Except.ok.injEq] at h
      rw [← h]

theorem handleCompactCommand_stepsRemaining (prompt : Option String)
    (agentState : AgentState) (fullResponse : String) :
    (handleCompactCommand prompt agentState fullResponse).stepsRemaining
      = agentState.stepsRemaining := by
  unfold handleCompactCommand
  cases prompt with
  | none => rfl
  | some p =>
    by_cases hc : p ≠ "" ∧ (p.toLower = "/compact" ∨ p.toLower = "compact")
    · simp [hc]
    · simp [hc]

/-- C10: `stepsRemaining` is left unchanged by the step-limit branch (which
makes no LLM request) and by the multi-completion branch (which does issue
exactly one LLM request); it is decremented by exactly 1 only on the normal
streaming path. -/
theorem runAgentStep_stepsRemaining_frame :
    (∀ (softSet : List String) (env : StepEnv) (agentTemplate : AgentTemplate)
        (agentState : AgentState) (prompt : Option String) (n : Option Nat)
        (eff : StepEffects) (r : RunAgentStepResult),
      agentState.stepsRemaining ≤ 0 →
      runAgentStep softSet env agentTemplate agentState prompt n
          = (eff, Except.ok r) →
      r.agentState.stepsRemaining = agentState.stepsRemaining ∧ eff.llmRequests = 0)
    ∧ (∀ (softSet : List String) (env : StepEnv) (agentTemplate : AgentTemplate)
        (agentState : AgentState) (prompt : Option String) (n : Nat)
        (eff : StepEffects) (r : RunAgentStepResult),
      0 < agentState.stepsRemaining →
      runAgentStep softSet env agentTemplate agentState prompt (some n)
          = (eff, Except.ok r) →
      r.agentState.stepsRemaining = agentState.stepsRemaining ∧ eff.llmRequests = 1)
    ∧ (∀ (softSet : List String) (env : StepEnv) (agentTemplate : AgentTemplate)
        (agentState : AgentState) (prompt : Option String)
        (eff : StepEffects) (r : RunAgentStepResult),
      0 < agentState.stepsRemaining →
      runAgentStep softSet env agentTemplate agentState prompt none
          = (eff, Except.ok r) →
      r.agentState.stepsRemaining = agentState.stepsRemaining - 1) := by
  refine ⟨?_, ?_, ?_⟩
  · intro softSet env agentTemplate agentState prompt n eff r h hrun
    rw [runAgentStep_step_limit softSet env agentTemplate agentState prompt n h]
      at hrun
    simp only [Prod.mk.injEq, Except.ok.injEq] at hrun
    rw [← hrun.2, ← hrun.1]
    exact ⟨rfl, rfl⟩
  · intro softSet env agentTemplate agentState prompt n eff r h hrun
    rw [runAgentStep_multi_eq softSet env agentTemplate agentState prompt n
      (by omega)] at hrun
    simp only [Prod.mk.injEq] at hrun
    have hst := handleMultipleResponses_stepsRemaining env
      (withStepPrompt env agentState) n r hrun.2
    rw [← hrun.1]
    exact ⟨hst, rfl⟩
  · intro softSet env agentTemplate agentState prompt eff r h hrun
    cases htr : env.transportError with
    | some e =>
      rw [runAgentStep_transport_eq softSet env agentTemplate agentState prompt e
        (by omega) htr] at hrun
      simp at hrun
    | none =>
      rw [runAgentStep_normal_eq softSet env agentTemplate agentState prompt
        (by omega) htr] at hrun
      simp only [Prod.mk.injEq, Except.ok.injEq] at hrun
      rw [← hrun.2]
      show (runNormalStream softSet env agentTemplate
        (withStepPrompt env agentState) prompt).agentState.stepsRemaining
          = agentState.stepsRemaining - 1
      unfold runNormalStream
      dsimp only
      rw [handleCompactCommand_stepsRemaining]
      rfl

/-- Witness for `runAgentStep_stepsRemaining_frame`: all three branches at
concrete inputs (budget 0, multi-completion with budget 3, normal stream
with budget 3). -/
theorem runAgentStep_stepsRemaining_frame_witness :
    (∃ eff r, runAgentStep [] {} plainTemplate plainState none none
        = (eff, Except.ok r) ∧ r.agentState.stepsRemaining = 0 ∧ eff.llmRequests = 0)
    ∧ (∃ eff r, runAgentStep [] {} plainTemplate readyState none (some 1)
        = (eff, Except.ok r) ∧ r.agentState.stepsRemaining = 3 ∧ eff.llmRequests = 1)
    ∧ (∃ eff r, runAgentStep [] {} plainTemplate readyState none none
        = (eff, Except.ok r) ∧ r.agentState.stepsRemaining = 2) := by
  refine ⟨⟨_, _, rfl, ?_⟩, ⟨_, _, rfl, ?_⟩, ⟨_, _, rfl, ?_⟩⟩
  · have := runAgentStep_stepsRemaining_frame.1 [] {} plainTemplate plainState
      none none _ _ (by decide) rfl
    simpa using this
  · have := runAgentStep_stepsRemaining_frame.2.1 [] {} plainTemplate readyState
      none 1 _ _ (by decide) rfl
    simpa using this
  · have := runAgentStep_stepsRemaining_frame.2.2 [] {} plainTemplate readyState
      none _ _ (by decide) rfl
    simpa using this

/-! ## C6 -/

/-- C6: a tool call whose name is not in the active template's `toolNames`
(and, on the custom path, is not namespaced under a configured MCP server)
and which did not originate from the programmatic handler is refused: the
dispatcher emits exactly one `error` event and returns with no `tool_call`
event, no `tool_result` event, no handler invocation and nothing appended
to message history (all remaining `ExecEffects` fields are empty).  The
parse outcome either reports the requested name or drops it on error. -/
theorem restricted_tool_refused :
    (∀ (parsed : ParsedToolCall) (toolName : String)
        (agentTemplate : AgentTemplate) (excl skip : Bool)
        (handlerOutput : List ContentPart),
      toolName ∉ agentTemplate.toolNames → toolName ≠ "" →
      (parsed.nameOf = none ∨ parsed.nameOf = some toolName) →
      ∃ msg, executeToolCall parsed toolName agentTemplate false excl skip
          handlerOutput
        = { events := [SinkEvent.errorEvent msg] })
    ∧ (∀ (parsed : ParsedToolCall) (toolName : String)
        (agentTemplate : AgentTemplate) (excl skip sig : Bool)
        (requestOutput : List ContentPart),
      toolName ∉ agentTemplate.toolNames → toolName ≠ "" →
      ¬ (toolName.contains '/'
          ∧ ((toolName.splitOn "/").headD "") ∈ agentTemplate.mcpServers) →
      (parsed.nameOf = none ∨ parsed.nameOf = some toolName) →
      ∃ msg, executeCustomToolCall parsed toolName agentTemplate false excl skip
          sig requestOutput
        = { events := [SinkEvent.errorEvent msg] }) := by
  constructor
  · intro parsed toolName agentTemplate excl skip handlerOutput hnot hne hname
    have hcont : agentTemplate.toolNames.contains toolName = false := by
      simpa using hnot
    cases parsed with
    | parseError nm e =>
      simp only [ParsedToolCall.nameOf] at hname
      rcases hname with hnm | hnm
      · exact ⟨e, by simp [executeToolCall, ParsedToolCall.nameOf, truthy, hnm]⟩
      · exact ⟨restrictedToolMessage toolName,
          by simp [executeToolCall, ParsedToolCall.nameOf, truthy, hnm, hne,
            hcont, hnot]⟩
    | parsedOk nm id input =>
      simp only [ParsedToolCall.nameOf, reduceCtorEq, Option.some.injEq,
        false_or] at hname
      exact ⟨restrictedToolMessage toolName,
        by simp [executeToolCall, ParsedToolCall.nameOf, truthy, hname, hne,
          hcont, hnot]⟩
  · intro parsed toolName agentTemplate excl skip sig requestOutput hnot hne hmcp hname
    have hcont : agentTemplate.toolNames.contains toolName = false := by
      simpa using hnot
    have hmcpb : (toolName.contains '/'
        && agentTemplate.mcpServers.contains ((toolName.splitOn "/").headD ""))
          = false := by
      rcases hsl : toolName.contains '/' with _ | _
      · simp
      · simp only [Bool.true_and]
        simp only [hsl, true_and] at hmcp
        simpa using hmcp
    cases parsed with
    | parseError nm e =>
      simp only [ParsedToolCall.nameOf] at hname
      rcases hname with hnm | hnm
      · exact ⟨e, by simp [executeCustomToolCall, ParsedToolCall.nameOf, truthy,
          hnm]⟩
      · refine ⟨restrictedCustomToolMessage toolName, ?_⟩
        simp [executeCustomToolCall, ParsedToolCall.nameOf, truthy, hnm,
          hne, hcont, hnot, hmcpb]
        intro h1 h2
        have hmcpi : toolName.contains '/' = true →
            (toolName.splitOn "/").head?.getD "" ∉ agentTemplate.mcpServers := by
          simpa using hmcp
        exact absurd h2 (hmcpi h1)
    | parsedOk nm id input =>
      simp only [ParsedToolCall.nameOf, reduceCtorEq, Option.some.injEq,
        false_or] at hname
      refine ⟨restrictedCustomToolMessage toolName, ?_⟩
      simp [executeCustomToolCall, ParsedToolCall.nameOf, truthy, hname,
        hne, hcont, hnot, hmcpb]
      intro h1 h2
      have hmcpi : toolName.contains '/' = true →
          (toolName.splitOn "/").head?.getD "" ∉ agentTemplate.mcpServers := by
        simpa using hmcp
      exact absurd h2 (hmcpi h1)

/-- Witness for `restricted_tool_refused`: the unlisted tool `secret_tool`
is refused on both the native and the custom dispatch path. -/
theorem restricted_tool_refused_witness :
    (∃ msg, executeToolCall (ParsedToolCall.parsedOk "secret_tool" "id1" "x")
        "secret_tool" plainTemplate false false false []
      = { events := [SinkEvent.errorEvent msg] })
    ∧ (∃ msg, executeCustomToolCall
        (ParsedToolCall.parsedOk "secret_tool" "id1" "x")
        "secret_tool" plainTemplate false false false false []
      = { events := [SinkEvent.errorEvent msg] }) :=
  ⟨restricted_tool_refused.1 (ParsedToolCall.parsedOk "secret_tool" "id1" "x")
      "secret_tool" plainTemplate false false [] (by decide) (by decide)
      (Or.inr rfl),
   restricted_tool_refused.2 (ParsedToolCall.parsedOk "secret_tool" "id1" "x")
      "secret_tool" plainTemplate false false false [] (by decide) (by decide)
      (fun h => List.not_mem_nil _ h.2) (Or.inr rfl)⟩

/-! ## C3 -/

/-- C3 counterexample: with the abort signal fired before the run starts,
`loopAgentSteps` does return `output = error "Run cancelled by user"` — but
it performs NO `finishAgentRun` call at all, so the run is not finalized
with status `cancelled` as the claim asserts (the claim's two conjuncts
never hold together on this path). -/
theorem loop_cancellation_counterexample :
    loopEnvAborted.signal 0 = true
      ∧ (loopAgentSteps loopEnvAborted plainTemplate {} plainState none false
          false true 5).map (fun o => o.finishCalls) = some []
      ∧ (loopAgentSteps loopEnvAborted plainTemplate {} plainState none false
          false true 5).map (fun o => o.result.toOption)
        = some (some (plainState,
            AgentOutput.errorOutput "Run cancelled by user" none)) := by
  refine ⟨rfl, ?_, ?_⟩ <;> decide

/-- C3 (amended): if the abort signal has fired before the run starts,
`loopAgentSteps` returns `output = error "Run cancelled by user"` without
any `finishAgentRun` call; if the signal reads aborted at the top of a loop
iteration (and still at finalization), the run is finalized with exactly one
`finishAgentRun` call of status `cancelled` and the returned output is the
one derived from the final agent state by the template's output rule
(`getAgentOutput`), not the cancellation error — with the message history of
completed steps preserved (only user-prompt-scoped messages expired when
configured). -/
theorem loop_cancellation_amended :
    (∀ (env : LoopEnv) (template : AgentTemplate) (reg : GenRegistry)
        (st : AgentState) (prompt : Option String) (pn cn clear : Bool)
        (fuel : Nat),
      env.signal 0 = true →
      loopAgentSteps env template reg st prompt pn cn clear fuel
        = some { registry := reg, finishCalls := []
                 result := Except.ok (st,
                   AgentOutput.errorOutput "Run cancelled by user" none) })
    ∧ (∀ (env : LoopEnv) (template : AgentTemplate) (clear : Bool)
        (runId : String) (fuel : Nat) (s : LoopState),
      env.signal s.checkIdx = true →
      env.signal (s.checkIdx + 1) = true →
      loopIter env template clear runId (fuel + 1) s
        = some { registry := s.reg
                 finishCalls := [{ runId := runId, status := RunStatus.cancelled
                                   totalSteps := s.totalSteps + 1 }]
                 result := Except.ok
                   ((if clear then
                       { s.st with messageHistory :=
                           expireMessages s.st.messageHistory TimeToLive.userPrompt }
                     else s.st),
                    env.getAgentOutput
                      (if clear then
                        { s.st with messageHistory :=
                            expireMessages s.st.messageHistory TimeToLive.userPrompt }
                       else s.st) template) }) := by
  constructor
  · intro env template reg st prompt pn cn clear fuel h
    unfold loopAgentSteps
    rw [if_pos h]
  · intro env template clear runId fuel s h1 h2
    unfold loopIter
    rw [if_pos h1]
    unfold finishLoop
    rw [h2]
    rfl

/-- Witness for `loop_cancellation_amended`: both cancellation paths at
concrete inputs (the always-aborted environment, and a loop state whose
next two signal reads are aborted). -/
theorem loop_cancellation_amended_witness :
    (loopEnvAborted.signal 0 = true
      ∧ loopAgentSteps loopEnvAborted plainTemplate {} plainState none false
          false true 5
        = some { registry := {}, finishCalls := []
                 result := Except.ok (plainState,
                   AgentOutput.errorOutput "Run cancelled by user" none) })
    ∧ (loopEnvAborted.signal 1 = true
      ∧ loopIter loopEnvAborted plainTemplate true "r9" 3
          { checkIdx := 1, iter := 0, reg := {}, st := plainState
            shouldEndTurn := false, hasRetriedOutputSchema := false
            currentPrompt := none, nResponses := none, totalSteps := 0 }
        = some { registry := {}
                 finishCalls := [{ runId := "r9", status := RunStatus.cancelled
                                   totalSteps := 1 }]
                 result := Except.ok
                   (expiredPlainState,
                    loopEnvAborted.getAgentOutput expiredPlainState plainTemplate) })
      := by
  constructor
  · exact ⟨rfl, loop_cancellation_amended.1 loopEnvAborted plainTemplate {}
      plainState none false false true 5 rfl⟩
  · refine ⟨rfl, ?_⟩
    have := loop_cancellation_amended.2 loopEnvAborted plainTemplate true "r9" 2
      { checkIdx := 1, iter := 0, reg := {}, st := plainState
        shouldEndTurn := false, hasRetriedOutputSchema := false
        currentPrompt := none, nResponses := none, totalSteps := 0 } rfl rfl
    simpa using this

/-! ## C4 -/

/-- C4: the code violates the claim.  A run whose handler throws on its
first resumption finishes with terminal status `completed` (the error path
reports `endTurn = true` to the loop), yet the Generator Registry still
holds the entry for `runId = "r1"` afterwards: `runProgrammaticStep`'s
`finally` clears the entry only when its `endTurn` local is set, and a
thrown handler error leaves that local `false`; no other code path clears
the registry when a run reaches `completed`, `failed` or `cancelled`. -/
theorem generator_retained_after_handler_throw :
    (loopAgentSteps loopEnvNoAbort progThrowTemplate {} plainState none false
        false true 5).map
      (fun o => (o.finishCalls, (getGenerator o.registry "r1").isSome))
      = some ([{ runId := "r1", status := RunStatus.completed, totalSteps := 2 }],
          true) := by
  decide

end AgentRuntime
